/-
Verification of the issue state-duration computation of this repository.

The repository carries three near-identical copies of `calculate_state_durations`
(in `get_issues.py`, `ai_impact_analysis/utils.py` and
`ai_impact_analysis/cli/get_jira_metrics.py`).  Each consumes a Jira issue dict
(with `fields.created`, `fields.status.name`, `fields.resolutiondate` and a
changelog of histories), extracts the status-change transitions, sorts them by
timestamp and walks them accumulating, per status, the total number of seconds
spent in the status and the number of entries into it.

Embedding choices:
* Timestamps are abstract instants, modelled as `Int` (seconds).  A raw Jira
  datetime string is abstracted by `DateStr`: the code observes a string only
  through `datetime.strptime` with the two formats
  `"%Y-%m-%dT%H:%M:%S.%f%z"` and `"%Y-%m-%dT%H:%M:%S%z"`, so a string is,
  up to that observation, either a value in the first format, a value in the
  second format, or unparsable.  A missing or empty string (both falsy in
  Python, and both rejected by every guard in the code) is `Option.none`.
* `datetime.now(tz)` read inside the Python functions is modelled by the
  parameter `now : Int`, the ambient wall-clock instant at the call.
* The Python dict `state_stats` (insertion ordered, unique keys) is an
  association list `StateStats` keyed by `Option String`: Python stores the
  state under its string name, and `None` is a possible key because the loop
  inserts `transition['to']` unguarded.  `getStat`/`bumpCount`/`addTotal`
  mirror `in`-test, `['count'] += 1` and `['total_seconds'] += d` exactly
  (first matching key; keys are unique in every reachable dict).
* Python truthiness of a state (`if current_state:`) is `truthy`: false for
  `None` and for the empty string.
* `list.sort(key=lambda x: x['date'])` is a stable ascending sort; it is
  embedded as `List.insertionSort` with the `≤`-on-date relation, which is
  also stable and ascending (any two stable sorts by the same key agree).
-/
import Mathlib

/-- A raw Jira datetime string, as observed by the parsing code: it either
parses with format `"%Y-%m-%dT%H:%M:%S.%f%z"` to an instant `v`, parses with
the fallback format `"%Y-%m-%dT%H:%M:%S%z"` to an instant `v`, or parses with
neither. -/
inductive DateStr where
  | micro (v : Int)
  | secs (v : Int)
  | invalid
deriving DecidableEq, Repr

/-- One entry of the Python dict `state_stats`:
`{'total_seconds': ..., 'count': ...}`. -/
structure Stat where
  total_seconds : Int
  count : Nat
deriving DecidableEq, Repr

/-- One element of a history's `items` list: `item.get('field')`,
`item.get('fromString')`, `item.get('toString')` (`none` = key absent). -/
structure ChangeItem where
  field : Option String
  fromString : Option String
  toString : Option String
deriving DecidableEq, Repr

/-- One element of `changelog['histories']`: `history.get('created')` and
`history.get('items', [])`. -/
structure History where
  created : Option DateStr
  items : List ChangeItem
deriving DecidableEq, Repr

/-- The parts of a Jira issue dict the three functions read:
`issue.get('key')`, `issue['fields'].get('created')`,
`issue['fields'].get('status', {}).get('name')` (`none` when the status object
or its name is missing, in which case the code falls back to `"Unknown"`),
`issue['fields'].get('resolutiondate')` and `changelog['histories']`. -/
structure Issue where
  key : Option String
  created : Option DateStr
  status : Option String
  resolutiondate : Option DateStr
  histories : List History
deriving DecidableEq, Repr

/-- One element of the `status_transitions` list built by the code:
`{'date': ..., 'from': ..., 'to': ...}`. -/
structure Transition where
  date : Int
  fromS : Option String
  toS : Option String
deriving DecidableEq, Repr

/-- Python truthiness of a state value (`if current_state:`): a state is a
string or `None`; falsy means `None` or the empty string. -/
def truthy : Option String → Bool
  | none => false
  | some s => !(s == "")

/-- The `state_stats` dict: insertion-ordered association list from state
(string or `None`) to its statistics. -/
abbrev StateStats := List (Option String × Stat)

/-- Dict lookup `state_stats[k]` (first matching key). -/
def getStat : StateStats → Option String → Option Stat
  | [], _ => none
  | p :: m, k => if p.1 = k then some p.2 else getStat m k

/-- Dict membership test `k in state_stats`. -/
def hasKey (m : StateStats) (k : Option String) : Bool :=
  (getStat m k).isSome

/-- `state_stats[k]['count'] += 1` (key present). -/
def bumpCount : StateStats → Option String → StateStats
  | [], _ => []
  | p :: m, k =>
    if p.1 = k then (p.1, ⟨p.2.total_seconds, p.2.count + 1⟩) :: m
    else p :: bumpCount m k

/-- The idiom
`if k not in state_stats: state_stats[k] = {'total_seconds': 0, 'count': 0}`
followed by `state_stats[k]['count'] += 1`. -/
def initStat (m : StateStats) (k : Option String) : StateStats :=
  if hasKey m k then bumpCount m k else m ++ [(k, ⟨0, 1⟩)]

/-- `state_stats[k]['total_seconds'] += d` (key present at every call site). -/
def addTotal : StateStats → Option String → Int → StateStats
  | [], _, _ => []
  | p :: m, k, d =>
    if p.1 = k then (p.1, ⟨p.2.total_seconds + d, p.2.count⟩) :: m
    else p :: addTotal m k d

/-- `total_seconds` recorded for state `k` (0 when absent). -/
def getTotal (m : StateStats) (k : Option String) : Int :=
  ((getStat m k).map Stat.total_seconds).getD 0

/-- `count` recorded for state `k` (0 when absent). -/
def getCount (m : StateStats) (k : Option String) : Nat :=
  ((getStat m k).map Stat.count).getD 0

/-- `sum(s['total_seconds'] for s in state_stats.values())`. -/
def sumTotals (m : StateStats) : Int :=
  (m.map (fun p => p.2.total_seconds)).sum

/-- The sort key order of `status_transitions.sort(key=lambda x: x['date'])`. -/
def dateLe (a b : Transition) : Prop := a.date ≤ b.date

instance : DecidableRel dateLe := fun a b => Int.decLe a.date b.date

instance : IsTotal Transition dateLe := ⟨fun a b => Int.le_total a.date b.date⟩

instance : IsTrans Transition dateLe := ⟨fun _ _ _ h h' => le_trans h h'⟩

/-- `status_transitions.sort(key=lambda x: x['date'])`: Python's stable
ascending sort, embedded as stable insertion sort on the date key. -/
def sortTransitions (l : List Transition) : List Transition :=
  List.insertionSort dateLe l

namespace Utils

/-- `ai_impact_analysis/utils.py`, `parse_datetime`: returns `None` on a falsy
input string, otherwise tries the two `strptime` formats in order and returns
`None` when both fail. -/
def parse_datetime : Option DateStr → Option Int
  | none => none
  | some (DateStr.micro v) => some v
  | some (DateStr.secs v) => some v
  | some DateStr.invalid => none

/-- The history scan of `calculate_state_durations` (utils.py lines 84–101):
skip histories with falsy or unparsable `created`, and collect a transition
for every item whose `field` equals `"status"`, in list order. -/
def extractTransitions (hs : List History) : List Transition :=
  (hs.map (fun h =>
    match parse_datetime h.created with
    | none => []
    | some d =>
      h.items.filterMap (fun it =>
        if it.field = some "status" then
          some ⟨d, it.fromString, it.toString⟩
        else none))).flatten

/-- The kept transitions, sorted by timestamp. -/
def sortedTransitions (issue : Issue) : List Transition :=
  sortTransitions (extractTransitions issue.histories)

/-- `issue['fields'].get('status', {}).get('name', 'Unknown')`. -/
def currentStatus (issue : Issue) : String :=
  issue.status.getD "Unknown"

/-- The initial status: `from` of the earliest transition when any exists,
else the current status. -/
def initialStatus (issue : Issue) : Option String :=
  match sortedTransitions issue with
  | [] => some (currentStatus issue)
  | t :: _ => t.fromS

/-- The dict after the `# Initialize first state` block: the initial status
gets count 1 when truthy, otherwise nothing is recorded. -/
def initialStats (issue : Issue) : StateStats :=
  if truthy (initialStatus issue) then initStat [] (initialStatus issue)
  else []

/-- The end instant used to close the final open interval: the parsed
`resolutiondate` when the field is truthy and parses, else the ambient
wall-clock instant (`datetime.now(...)` in the source). -/
def end_of_analysis (issue : Issue) (now : Int) : Int :=
  match issue.resolutiondate with
  | none => now
  | some r =>
    match parse_datetime (some r) with
    | some v => v
    | none => now

/-- The `for transition in status_transitions:` loop, threading the dict, the
current state and the instant the current state was entered. -/
def processTransitions :
    List Transition → StateStats → Option String → Int →
      StateStats × Option String × Int
  | [], stats, cur, start => (stats, cur, start)
  | t :: ts, stats, cur, start =>
    let stats1 := if truthy cur then addTotal stats cur (t.date - start) else stats
    let stats2 := initStat stats1 t.toS
    processTransitions ts stats2 t.toS t.date

/-- The `# Calculate time for last state` block: when the final state is
truthy, add the duration from its entry instant to the end instant. -/
def closeOut (r : StateStats × Option String × Int) (endDate : Int) : StateStats :=
  if truthy r.2.1 then addTotal r.1 r.2.1 (endDate - r.2.2) else r.1

/-- `ai_impact_analysis/utils.py`, `calculate_state_durations` (lines 57–147),
with the ambient clock instant passed as `now`. -/
def calculate_state_durations (issue : Issue) (now : Int) : StateStats :=
  if issue.created.isNone then []
  else
    match parse_datetime issue.created with
    | none => []
    | some created_date =>
      closeOut
        (processTransitions (sortedTransitions issue) (initialStats issue)
          (initialStatus issue) created_date)
        (end_of_analysis issue now)

end Utils

namespace GetIssues

/-- `get_issues.py`, history scan (lines 91–117): the datetime parsing is
inlined as the two `strptime` attempts with `continue` when both fail. -/
def extractTransitions (hs : List History) : List Transition :=
  (hs.map (fun h =>
    match h.created with
    | some (DateStr.micro v) =>
      h.items.filterMap (fun it =>
        if it.field = some "status" then
          some ⟨v, it.fromString, it.toString⟩
        else none)
    | some (DateStr.secs v) =>
      h.items.filterMap (fun it =>
        if it.field = some "status" then
          some ⟨v, it.fromString, it.toString⟩
        else none)
    | _ => [])).flatten

/-- The `for transition in status_transitions:` loop of `get_issues.py`
(lines 137–148). -/
def processTransitions :
    List Transition → StateStats → Option String → Int →
      StateStats × Option String × Int
  | [], stats, cur, start => (stats, cur, start)
  | t :: ts, stats, cur, start =>
    let stats1 := if truthy cur then addTotal stats cur (t.date - start) else stats
    let stats2 := initStat stats1 t.toS
    processTransitions ts stats2 t.toS t.date

/-- `get_issues.py`, `calculate_state_durations` (lines 63–167), with the
ambient clock instant passed as `now`.  The unused `issue_key` binding of the
source is kept as the unused `_issue_key`. -/
def calculate_state_durations (issue : Issue) (now : Int) : StateStats :=
  let _issue_key := issue.key.getD "unknown"
  if issue.created.isNone then []
  else
    let created_date? : Option Int :=
      match issue.created with
      | some (DateStr.micro v) => some v
      | some (DateStr.secs v) => some v
      | _ => none
    match created_date? with
    | none => []
    | some created_date =>
      let status_transitions := sortTransitions (extractTransitions issue.histories)
      let initial_status : Option String :=
        match status_transitions with
        | [] => some (issue.status.getD "Unknown")
        | t :: _ => t.fromS
      let stats0 : StateStats :=
        if truthy initial_status then initStat [] initial_status else []
      let r := processTransitions status_transitions stats0 initial_status created_date
      if truthy r.2.1 then
        let end_date : Int :=
          match issue.resolutiondate with
          | none => now
          | some (DateStr.micro v) => v
          | some (DateStr.secs v) => v
          | some DateStr.invalid => now
        addTotal r.1 r.2.1 (end_date - r.2.2)
      else r.1

end GetIssues

namespace GetJiraMetrics

/-- `ai_impact_analysis/cli/get_jira_metrics.py`, history scan
(lines 95–113). -/
def extractTransitions (hs : List History) : List Transition :=
  (hs.map (fun h =>
    match h.created with
    | some (DateStr.micro v) =>
      h.items.filterMap (fun it =>
        if it.field = some "status" then
          some ⟨v, it.fromString, it.toString⟩
        else none)
    | some (DateStr.secs v) =>
      h.items.filterMap (fun it =>
        if it.field = some "status" then
          some ⟨v, it.fromString, it.toString⟩
        else none)
    | _ => [])).flatten

/-- The `for transition in status_transitions:` loop of `get_jira_metrics.py`
(lines 134–146). -/
def processTransitions :
    List Transition → StateStats → Option String → Int →
      StateStats × Option String × Int
  | [], stats, cur, start => (stats, cur, start)
  | t :: ts, stats, cur, start =>
    let stats1 := if truthy cur then addTotal stats cur (t.date - start) else stats
    let stats2 := initStat stats1 t.toS
    processTransitions ts stats2 t.toS t.date

/-- `ai_impact_analysis/cli/get_jira_metrics.py`, `calculate_state_durations`
(lines 64–165), with the ambient clock instant passed as `now`. -/
def calculate_state_durations (issue : Issue) (now : Int) : StateStats :=
  if issue.created.isNone then []
  else
    let created_date? : Option Int :=
      match issue.created with
      | some (DateStr.micro v) => some v
      | some (DateStr.secs v) => some v
      | _ => none
    match created_date? with
    | none => []
    | some created_date =>
      let status_transitions := sortTransitions (extractTransitions issue.histories)
      let initial_status : Option String :=
        match status_transitions with
        | [] => some (issue.status.getD "Unknown")
        | t :: _ => t.fromS
      let stats0 : StateStats :=
        if truthy initial_status then initStat [] initial_status else []
      let r := processTransitions status_transitions stats0 initial_status created_date
      if truthy r.2.1 then
        let end_date : Int :=
          match issue.resolutiondate with
          | none => now
          | some (DateStr.micro v) => v
          | some (DateStr.secs v) => v
          | some DateStr.invalid => now
        addTotal r.1 r.2.1 (end_date - r.2.2)
      else r.1

end GetJiraMetrics

/-! ### Lemmas about the dict operations -/

theorem truthy_ne_none {s : Option String} (h : truthy s = true) : s ≠ none := by
  cases s with
  | none => simp [truthy] at h
  | some s => simp

theorem getStat_of_not_hasKey {m : StateStats} {k : Option String}
    (h : hasKey m k = false) : getStat m k = none := by
  unfold hasKey at h
  exact Option.not_isSome_iff_eq_none.mp (by simp [h])

theorem getStat_append (m : StateStats) (k : Option String) (v : Stat)
    (s : Option String) :
    getStat (m ++ [(k, v)]) s =
      match getStat m s with
      | some st => some st
      | none => if k = s then some v else none := by
  induction m with
  | nil => simp [getStat]
  | cons p m ih =>
    by_cases hp : p.1 = s
    · simp [getStat, hp]
    · simp [getStat, hp, ih]

theorem getStat_addTotal (m : StateStats) (k : Option String) (d : Int)
    (s : Option String) :
    getStat (addTotal m k d) s =
      if s = k then
        (getStat m k).map (fun st => ⟨st.total_seconds + d, st.count⟩)
      else getStat m s := by
  induction m with
  | nil => simp [addTotal, getStat]
  | cons p m ih =>
    by_cases hk : p.1 = k
    · by_cases hs : s = k
      · simp [addTotal, getStat, hk, hs]
      · have hks : ¬ (k = s) := fun h => hs h.symm
        simp [addTotal, getStat, hk, hs, hks]
    · by_cases hs : p.1 = s
      · have hsk : ¬ (s = k) := fun h => hk (hs.trans h)
        simp [addTotal, getStat, hk, hs, hsk]
      · simp [addTotal, getStat, hk, hs, ih]

theorem getCount_addTotal (m : StateStats) (k : Option String) (d : Int)
    (s : Option String) : getCount (addTotal m k d) s = getCount m s := by
  unfold getCount
  rw [getStat_addTotal]
  by_cases hs : s = k
  · subst hs
    cases getStat m s <;> simp
  · simp [hs]

theorem hasKey_addTotal (m : StateStats) (k : Option String) (d : Int)
    (s : Option String) : hasKey (addTotal m k d) s = hasKey m s := by
  unfold hasKey
  rw [getStat_addTotal]
  by_cases hs : s = k
  · subst hs
    cases getStat m s <;> simp
  · simp [hs]

theorem getTotal_addTotal_self {m : StateStats} {k : Option String} (d : Int)
    (h : hasKey m k = true) : getTotal (addTotal m k d) k = getTotal m k + d := by
  unfold hasKey at h
  unfold getTotal
  rw [getStat_addTotal]
  obtain ⟨st, hst⟩ := Option.isSome_iff_exists.mp h
  simp [hst]

theorem getTotal_addTotal_ne {m : StateStats} {k s : Option String} (d : Int)
    (h : s ≠ k) : getTotal (addTotal m k d) s = getTotal m s := by
  unfold getTotal
  rw [getStat_addTotal]
  simp [h]

theorem sumTotals_addTotal {m : StateStats} {k : Option String} (d : Int)
    (h : hasKey m k = true) : sumTotals (addTotal m k d) = sumTotals m + d := by
  induction m with
  | nil => simp [hasKey, getStat] at h
  | cons p m ih =>
    by_cases hk : p.1 = k
    · simp [addTotal, hk, sumTotals, List.map_cons, List.sum_cons]
      ring
    · have h' : hasKey m k = true := by
        simpa [hasKey, getStat, hk] using h
      simp only [addTotal, if_neg hk, sumTotals, List.map_cons, List.sum_cons]
      have := ih h'
      unfold sumTotals at this
      rw [this]
      ring

theorem getStat_bumpCount (m : StateStats) (k s : Option String) :
    getStat (bumpCount m k) s =
      if s = k then
        (getStat m k).map (fun st => ⟨st.total_seconds, st.count + 1⟩)
      else getStat m s := by
  induction m with
  | nil => simp [bumpCount, getStat]
  | cons p m ih =>
    by_cases hk : p.1 = k
    · by_cases hs : s = k
      · simp [bumpCount, getStat, hk, hs]
      · have hks : ¬ (k = s) := fun h => hs h.symm
        simp [bumpCount, getStat, hk, hs, hks]
    · by_cases hs : p.1 = s
      · have hsk : ¬ (s = k) := fun h => hk (hs.trans h)
        simp [bumpCount, getStat, hk, hs, hsk]
      · simp [bumpCount, getStat, hk, hs, ih]

theorem sumTotals_bumpCount (m : StateStats) (k : Option String) :
    sumTotals (bumpCount m k) = sumTotals m := by
  induction m with
  | nil => simp [bumpCount]
  | cons p m ih =>
    by_cases hk : p.1 = k
    · simp [bumpCount, hk, sumTotals]
    · simp only [bumpCount, if_neg hk, sumTotals, List.map_cons, List.sum_cons]
      unfold sumTotals at ih
      rw [ih]

theorem getStat_initStat (m : StateStats) (k s : Option String) :
    getStat (initStat m k) s =
      if s = k then
        match getStat m k with
        | some st => some ⟨st.total_seconds, st.count + 1⟩
        | none => some ⟨0, 1⟩
      else getStat m s := by
  unfold initStat
  by_cases hm : hasKey m k
  · rw [if_pos hm, getStat_bumpCount]
    obtain ⟨st, hst⟩ := Option.isSome_iff_exists.mp hm
    by_cases hs : s = k <;> simp [hs, hst]
  · have hnone : getStat m k = none := getStat_of_not_hasKey (by simpa using hm)
    rw [if_neg hm, getStat_append]
    by_cases hs : s = k
    · subst hs
      simp [hnone]
    · have hks : ¬ (k = s) := fun h => hs h.symm
      cases hgs : getStat m s <;> simp [hs, hks, hgs]

theorem hasKey_initStat_self (m : StateStats) (k : Option String) :
    hasKey (initStat m k) k = true := by
  unfold hasKey
  rw [getStat_initStat]
  cases getStat m k <;> simp

theorem hasKey_initStat_ne {m : StateStats} {k s : Option String} (h : s ≠ k) :
    hasKey (initStat m k) s = hasKey m s := by
  unfold hasKey
  rw [getStat_initStat, if_neg h]

theorem getCount_initStat_self (m : StateStats) (k : Option String) :
    getCount (initStat m k) k = getCount m k + 1 := by
  unfold getCount
  rw [getStat_initStat, if_pos rfl]
  cases getStat m k <;> simp

theorem getCount_initStat_ne {m : StateStats} {k s : Option String} (h : s ≠ k) :
    getCount (initStat m k) s = getCount m s := by
  unfold getCount
  rw [getStat_initStat, if_neg h]

theorem getTotal_initStat (m : StateStats) (k s : Option String) :
    getTotal (initStat m k) s = getTotal m s := by
  unfold getTotal
  rw [getStat_initStat]
  by_cases hs : s = k
  · subst hs
    cases getStat m s <;> simp
  · rw [if_neg hs]

theorem sumTotals_initStat (m : StateStats) (k : Option String) :
    sumTotals (initStat m k) = sumTotals m := by
  unfold initStat
  by_cases hm : hasKey m k
  · rw [if_pos hm, sumTotals_bumpCount]
  · rw [if_neg hm]
    simp [sumTotals]

/-! ### Lemmas about the transition walk -/

theorem processTransitions_counts (ts : List Transition) :
    ∀ (stats : StateStats) (cur : Option String) (start : Int) (s : Option String),
      getCount (Utils.processTransitions ts stats cur start).1 s
        = getCount stats s + ts.countP (fun t => t.toS == s) := by
  induction ts with
  | nil =>
    intro stats cur start s
    simp [Utils.processTransitions]
  | cons t ts ih =>
    intro stats cur start s
    rw [Utils.processTransitions]
    rw [ih]
    by_cases hs : t.toS = s
    · rw [List.countP_cons_of_pos _ _ (by simpa using hs), ← hs,
        getCount_initStat_self]
      by_cases hc : truthy cur
      · simp only [if_pos hc, getCount_addTotal]
        omega
      · simp only [if_neg hc]
        omega
    · have hsne : s ≠ t.toS := fun h => hs h.symm
      rw [List.countP_cons_of_neg _ _ (by simpa using hs),
        getCount_initStat_ne hsne]
      by_cases hc : truthy cur
      · simp only [if_pos hc, getCount_addTotal]
      · simp only [if_neg hc]

theorem processTransitions_main (ts : List Transition) :
    ∀ (stats : StateStats) (cur : Option String) (start : Int),
      truthy cur = true →
      (∀ t ∈ ts, truthy t.toS = true) →
      hasKey stats cur = true →
      truthy (Utils.processTransitions ts stats cur start).2.1 = true
      ∧ hasKey (Utils.processTransitions ts stats cur start).1
          (Utils.processTransitions ts stats cur start).2.1 = true
      ∧ sumTotals (Utils.processTransitions ts stats cur start).1
          = sumTotals stats + ((Utils.processTransitions ts stats cur start).2.2 - start)
      ∧ hasKey (Utils.processTransitions ts stats cur start).1 none
          = hasKey stats none := by
  induction ts with
  | nil =>
    intro stats cur start hcur _ hkey
    refine ⟨hcur, hkey, by simp [Utils.processTransitions], rfl⟩
  | cons t ts ih =>
    intro stats cur start hcur hall hkey
    have htoS : truthy t.toS = true := hall t (List.mem_cons_self t ts)
    have hall' : ∀ u ∈ ts, truthy u.toS = true := fun u hu => hall u (List.mem_cons_of_mem t hu)
    rw [Utils.processTransitions]
    simp only [if_pos hcur]
    set stats1 := addTotal stats cur (t.date - start) with hstats1
    set stats2 := initStat stats1 t.toS with hstats2
    have hkey2 : hasKey stats2 t.toS = true := hasKey_initStat_self stats1 t.toS
    obtain ⟨h1, h2, h3, h4⟩ := ih stats2 t.toS t.date htoS hall' hkey2
    refine ⟨h1, h2, ?_, ?_⟩
    · rw [h3]
      have hs2 : sumTotals stats2 = sumTotals stats1 := sumTotals_initStat stats1 t.toS
      have hs1 : sumTotals stats1 = sumTotals stats + (t.date - start) :=
        sumTotals_addTotal (t.date - start) hkey
      rw [hs2, hs1]
      ring
    · rw [h4]
      have hne : (none : Option String) ≠ t.toS := fun h => (truthy_ne_none htoS) h.symm
      rw [hstats2, hasKey_initStat_ne hne, hstats1, hasKey_addTotal]

/-! ### Lemmas about the sort -/

theorem sortTransitions_sorted (l : List Transition) :
    List.Sorted dateLe (sortTransitions l) :=
  List.sorted_insertionSort dateLe l

theorem sortTransitions_perm (l : List Transition) :
    List.Perm (sortTransitions l) l :=
  List.perm_insertionSort dateLe l

theorem filter_orderedInsert (k : Int) (t : Transition) (l : List Transition) :
    (List.orderedInsert dateLe t l).filter (fun u => u.date == k)
      = if t.date = k then t :: l.filter (fun u => u.date == k)
        else l.filter (fun u => u.date == k) := by
  induction l with
  | nil =>
    by_cases ht : t.date = k
    · have hbt : (t.date == k) = true := by simpa using ht
      simp [List.orderedInsert, List.filter, ht, hbt]
    · have hbf : (t.date == k) = false := by simpa using ht
      simp [List.orderedInsert, List.filter, ht, hbf]
  | cons u us ih =>
    by_cases hle : dateLe t u
    · rw [List.orderedInsert, if_pos hle]
      by_cases ht : t.date = k
      · have hbt : (t.date == k) = true := by simpa using ht
        simp [List.filter_cons, ht, hbt]
      · have hbf : (t.date == k) = false := by simpa using ht
        simp [List.filter_cons, ht, hbf]
    · rw [List.orderedInsert, if_neg hle]
      have hlt : u.date < t.date := lt_of_not_le hle
      by_cases ht : t.date = k
      · have hu : u.date ≠ k := by omega
        have hbu : (u.date == k) = false := by simpa using hu
        rw [if_pos ht]
        simp only [List.filter_cons, hbu]
        rw [ih, if_pos ht]
        simp
      · rw [if_neg ht]
        simp only [List.filter_cons]
        rw [ih, if_neg ht]

theorem filter_sortTransitions (k : Int) (l : List Transition) :
    (sortTransitions l).filter (fun u => u.date == k)
      = l.filter (fun u => u.date == k) := by
  induction l with
  | nil => rfl
  | cons t ts ih =>
    show (List.orderedInsert dateLe t (sortTransitions ts)).filter _ = _
    rw [filter_orderedInsert]
    by_cases ht : t.date = k
    · rw [if_pos ht, ih]
      simp [List.filter_cons, ht]
    · rw [if_neg ht, ih]
      simp [List.filter_cons, ht]

/-! ### Lemmas about the history scan -/

theorem extractTransitions_filter_parsable (hs : List History) :
    Utils.extractTransitions
        (hs.filter (fun h => (Utils.parse_datetime h.created).isSome))
      = Utils.extractTransitions hs := by
  induction hs with
  | nil => rfl
  | cons h hs ih =>
    cases hp : Utils.parse_datetime h.created with
    | none =>
      have hb : ((Utils.parse_datetime h.created).isSome) = false := by simp [hp]
      have ih' := ih
      simp only [Utils.extractTransitions] at ih'
      simp only [List.filter_cons, hb, Bool.false_eq_true, if_false,
        Utils.extractTransitions, List.map_cons, List.flatten_cons]
      rw [hp]
      simpa using ih'
    | some d =>
      have hb : ((Utils.parse_datetime h.created).isSome) = true := by simp [hp]
      simp only [List.filter_cons, hb, if_true, Utils.extractTransitions,
        List.map_cons, List.flatten_cons]
      have ih' := ih
      simp only [Utils.extractTransitions] at ih'
      rw [ih']

/-! ### The three copies compute the same function -/

theorem gi_extract_eq (hs : List History) :
    GetIssues.extractTransitions hs = Utils.extractTransitions hs := by
  induction hs with
  | nil => rfl
  | cons h hs ih =>
    simp only [GetIssues.extractTransitions, Utils.extractTransitions,
      List.map_cons, List.flatten_cons] at ih ⊢
    rw [ih]
    congr 1
    cases h.created with
    | none => simp [Utils.parse_datetime]
    | some ds => cases ds <;> simp [Utils.parse_datetime]

theorem jm_extract_eq (hs : List History) :
    GetJiraMetrics.extractTransitions hs = Utils.extractTransitions hs := by
  induction hs with
  | nil => rfl
  | cons h hs ih =>
    simp only [GetJiraMetrics.extractTransitions, Utils.extractTransitions,
      List.map_cons, List.flatten_cons] at ih ⊢
    rw [ih]
    congr 1
    cases h.created with
    | none => simp [Utils.parse_datetime]
    | some ds => cases ds <;> simp [Utils.parse_datetime]

theorem gi_walk_eq (ts : List Transition) :
    ∀ (stats : StateStats) (cur : Option String) (start : Int),
      GetIssues.processTransitions ts stats cur start
        = Utils.processTransitions ts stats cur start := by
  induction ts with
  | nil => intro stats cur start; rfl
  | cons t ts ih =>
    intro stats cur start
    rw [GetIssues.processTransitions, Utils.processTransitions]
    exact ih _ _ _

theorem jm_walk_eq (ts : List Transition) :
    ∀ (stats : StateStats) (cur : Option String) (start : Int),
      GetJiraMetrics.processTransitions ts stats cur start
        = Utils.processTransitions ts stats cur start := by
  induction ts with
  | nil => intro stats cur start; rfl
  | cons t ts ih =>
    intro stats cur start
    rw [GetJiraMetrics.processTransitions, Utils.processTransitions]
    exact ih _ _ _

theorem gi_eq_utils (issue : Issue) (now : Int) :
    GetIssues.calculate_state_durations issue now
      = Utils.calculate_state_durations issue now := by
  unfold GetIssues.calculate_state_durations Utils.calculate_state_durations
  cases hc : issue.created with
  | none => rfl
  | some ds =>
    cases ds <;>
      simp only [Option.isNone_some, Bool.false_eq_true, if_false,
        Utils.parse_datetime, Utils.sortedTransitions, Utils.initialStatus,
        Utils.initialStats, Utils.currentStatus, Utils.closeOut,
        Utils.end_of_analysis, gi_extract_eq, gi_walk_eq] <;>
      cases hr : issue.resolutiondate with
      | none => rfl
      | some r => cases r <;> rfl

theorem jm_eq_utils (issue : Issue) (now : Int) :
    GetJiraMetrics.calculate_state_durations issue now
      = Utils.calculate_state_durations issue now := by
  unfold GetJiraMetrics.calculate_state_durations Utils.calculate_state_durations
  cases hc : issue.created with
  | none => rfl
  | some ds =>
    cases ds <;>
      simp only [Option.isNone_some, Bool.false_eq_true, if_false,
        Utils.parse_datetime, Utils.sortedTransitions, Utils.initialStatus,
        Utils.initialStats, Utils.currentStatus, Utils.closeOut,
        Utils.end_of_analysis, jm_extract_eq, jm_walk_eq] <;>
      cases hr : issue.resolutiondate with
      | none => rfl
      | some r => cases r <;> rfl

/-! ### Bridge lemmas for the top-level function -/

theorem calc_eq_closeOut {issue : Issue} {c : Int}
    (h : Utils.parse_datetime issue.created = some c) (now : Int) :
    Utils.calculate_state_durations issue now
      = Utils.closeOut
          (Utils.processTransitions (Utils.sortedTransitions issue)
            (Utils.initialStats issue) (Utils.initialStatus issue) c)
          (Utils.end_of_analysis issue now) := by
  have hne : issue.created.isNone = false := by
    cases hc : issue.created
    · rw [hc] at h
      simp [Utils.parse_datetime] at h
    · simp
  unfold Utils.calculate_state_durations
  rw [hne, h]
  simp

theorem getCount_initialStats (issue : Issue) (s : Option String) :
    getCount (Utils.initialStats issue) s =
      if truthy (Utils.initialStatus issue) = true ∧ s = Utils.initialStatus issue
      then 1 else 0 := by
  unfold Utils.initialStats
  by_cases ht : truthy (Utils.initialStatus issue) = true
  · rw [if_pos ht]
    by_cases hs : s = Utils.initialStatus issue
    · rw [hs, getCount_initStat_self]
      simp [getCount, getStat, ht, hs]
    · rw [getCount_initStat_ne hs]
      simp [getCount, getStat, ht, hs]
  · rw [if_neg ht]
    simp only [getCount, getStat, Option.map_none, Option.getD_none]
    simp [ht]

theorem calc_counts {issue : Issue} {c : Int}
    (h : Utils.parse_datetime issue.created = some c) (now : Int) (s : Option String) :
    getCount (Utils.calculate_state_durations issue now) s
      = getCount (Utils.initialStats issue) s
        + (Utils.extractTransitions issue.histories).countP (fun t => t.toS == s) := by
  rw [calc_eq_closeOut h now]
  have hperm : (Utils.sortedTransitions issue).countP (fun t => t.toS == s)
      = (Utils.extractTransitions issue.histories).countP (fun t => t.toS == s) :=
    (sortTransitions_perm (Utils.extractTransitions issue.histories)).countP_eq _
  unfold Utils.closeOut
  by_cases hf : truthy (Utils.processTransitions (Utils.sortedTransitions issue)
      (Utils.initialStats issue) (Utils.initialStatus issue) c).2.1 = true
  · rw [if_pos hf, getCount_addTotal, processTransitions_counts, hperm]
  · rw [if_neg hf, processTransitions_counts, hperm]

theorem sumTotals_initialStats (issue : Issue) :
    sumTotals (Utils.initialStats issue) = 0 := by
  unfold Utils.initialStats
  by_cases ht : truthy (Utils.initialStatus issue) = true
  · rw [if_pos ht, sumTotals_initStat]
    rfl
  · rw [if_neg ht]
    rfl

theorem calc_sum_truthy {issue : Issue} {c : Int}
    (h : Utils.parse_datetime issue.created = some c)
    (hinit : truthy (Utils.initialStatus issue) = true)
    (hall : ∀ t ∈ Utils.sortedTransitions issue, truthy t.toS = true) (now : Int) :
    sumTotals (Utils.calculate_state_durations issue now)
      = Utils.end_of_analysis issue now - c := by
  rw [calc_eq_closeOut h now]
  have hkey0 : hasKey (Utils.initialStats issue) (Utils.initialStatus issue) = true := by
    unfold Utils.initialStats
    rw [if_pos hinit]
    exact hasKey_initStat_self [] _
  obtain ⟨h1, h2, h3, _⟩ := processTransitions_main (Utils.sortedTransitions issue)
    (Utils.initialStats issue) (Utils.initialStatus issue) c hinit hall hkey0
  unfold Utils.closeOut
  rw [if_pos h1, sumTotals_addTotal _ h2, h3, sumTotals_initialStats]
  ring

theorem calc_sum_none_initial {issue : Issue} {c : Int} {t : Transition}
    {rest : List Transition}
    (h : Utils.parse_datetime issue.created = some c)
    (hsort : Utils.sortedTransitions issue = t :: rest)
    (hfrom : t.fromS = none)
    (hall : ∀ u ∈ Utils.sortedTransitions issue, truthy u.toS = true) (now : Int) :
    getStat (Utils.calculate_state_durations issue now) none = none
    ∧ sumTotals (Utils.calculate_state_durations issue now)
        = Utils.end_of_analysis issue now - t.date := by
  have hinit : Utils.initialStatus issue = none := by
    unfold Utils.initialStatus
    rw [hsort]
    exact hfrom
  have hstats0 : Utils.initialStats issue = [] := by
    unfold Utils.initialStats
    rw [hinit]
    rfl
  have htoS : truthy t.toS = true := by
    refine hall t ?_
    rw [hsort]
    exact List.mem_cons_self t rest
  have hall' : ∀ u ∈ rest, truthy u.toS = true := by
    intro u hu
    refine hall u ?_
    rw [hsort]
    exact List.mem_cons_of_mem t hu
  have hkey : hasKey (initStat [] t.toS) t.toS = true := hasKey_initStat_self [] t.toS
  obtain ⟨h1, h2, h3, h4⟩ :=
    processTransitions_main rest (initStat [] t.toS) t.toS t.date htoS hall' hkey
  have hwalk : Utils.processTransitions (Utils.sortedTransitions issue)
      (Utils.initialStats issue) (Utils.initialStatus issue) c
      = Utils.processTransitions rest (initStat [] t.toS) t.toS t.date := by
    rw [hsort, hstats0, hinit, Utils.processTransitions]
    simp [truthy]
  rw [calc_eq_closeOut h now, hwalk]
  unfold Utils.closeOut
  rw [if_pos h1]
  constructor
  · have hnone : hasKey (addTotal
        (Utils.processTransitions rest (initStat [] t.toS) t.toS t.date).1
        (Utils.processTransitions rest (initStat [] t.toS) t.toS t.date).2.1
        (Utils.end_of_analysis issue now
          - (Utils.processTransitions rest (initStat [] t.toS) t.toS t.date).2.2))
        none = false := by
      rw [hasKey_addTotal, h4]
      have hne : (none : Option String) ≠ t.toS :=
        fun hx => (truthy_ne_none htoS) hx.symm
      rw [hasKey_initStat_ne hne]
      rfl
    unfold hasKey at hnone
    exact Option.not_isSome_iff_eq_none.mp (by simp [hnone])
  · rw [sumTotals_addTotal _ h2, h3, sumTotals_initStat]
    show sumTotals ([] ++ _) + _ + _ = _
    simp [sumTotals]

/-! ### The A→B→A re-entry scenario -/

/-- An issue created at `c` with exactly two status transitions,
`A → B` at `t1` and `B → A` at `t2`, still unresolved. -/
def scenarioIssue (A B : String) (c t1 t2 : Int) : Issue :=
  { key := none, created := some (DateStr.micro c), status := some A,
    resolutiondate := none,
    histories := [
      ⟨some (DateStr.micro t1), [⟨some "status", some A, some B⟩]⟩,
      ⟨some (DateStr.micro t2), [⟨some "status", some B, some A⟩]⟩ ] }

theorem scenarioIssue_sorted (A B : String) (c t1 t2 : Int) (h12 : t1 ≤ t2) :
    Utils.sortedTransitions (scenarioIssue A B c t1 t2)
      = [⟨t1, some A, some B⟩, ⟨t2, some B, some A⟩] := by
  show sortTransitions (Utils.extractTransitions _) = _
  have hext : Utils.extractTransitions (scenarioIssue A B c t1 t2).histories
      = [⟨t1, some A, some B⟩, ⟨t2, some B, some A⟩] := by
    simp [scenarioIssue, Utils.extractTransitions, Utils.parse_datetime]
  rw [hext]
  simp [sortTransitions, List.insertionSort, List.orderedInsert, dateLe, h12]

theorem scenarioIssue_calc (A B : String) (c t1 t2 now : Int)
    (hA : A ≠ "") (hB : B ≠ "") (hAB : A ≠ B) (h12 : t1 ≤ t2) :
    Utils.calculate_state_durations (scenarioIssue A B c t1 t2) now
      = [(some A, ⟨(t1 - c) + (now - t2), 2⟩), (some B, ⟨t2 - t1, 1⟩)] := by
  have hparse : Utils.parse_datetime (scenarioIssue A B c t1 t2).created = some c := rfl
  have hsorted := scenarioIssue_sorted A B c t1 t2 h12
  have hinit : Utils.initialStatus (scenarioIssue A B c t1 t2) = some A := by
    unfold Utils.initialStatus
    rw [hsorted]
  have htruA : truthy (some A) = true := by simp [truthy, hA]
  have hstats0 : Utils.initialStats (scenarioIssue A B c t1 t2)
      = [(some A, ⟨0, 1⟩)] := by
    unfold Utils.initialStats
    rw [hinit]
    simp [htruA, initStat, hasKey, getStat]
  have hend : Utils.end_of_analysis (scenarioIssue A B c t1 t2) now = now := rfl
  have hBA : B ≠ A := fun hx => hAB hx.symm
  rw [calc_eq_closeOut hparse now, hsorted, hstats0, hinit, hend]
  simp only [Utils.processTransitions, Utils.closeOut]
  simp [truthy, hA, hB, hAB, hBA, addTotal, initStat, bumpCount, hasKey, getStat]

/-! ### Concrete issues used as counterexamples and witnesses -/

/-- An issue whose earliest transition has `fromString = None`: created at 0,
resolved at 200, one transition to `"Done"` at 100. -/
def cexIssueC1 : Issue :=
  { key := none, created := some (DateStr.micro 0), status := some "Open",
    resolutiondate := some (DateStr.micro 200),
    histories := [⟨some (DateStr.micro 100),
      [⟨some "status", none, some "Done"⟩]⟩] }

/-- An issue like `cexIssueC1` but with a present, non-empty `fromString`. -/
def witIssueC1 : Issue :=
  { key := none, created := some (DateStr.micro 0), status := some "Open",
    resolutiondate := some (DateStr.micro 200),
    histories := [⟨some (DateStr.micro 100),
      [⟨some "status", some "Open", some "Done"⟩]⟩] }

/-- An issue whose `resolutiondate` (instant 0) precedes its `created`
(instant 86400 = one day later): malformed data, as in the ClockSkew case of
the spec. -/
def cexIssueC2 : Issue :=
  { key := none, created := some (DateStr.micro 86400), status := some "Open",
    resolutiondate := some (DateStr.micro 0), histories := [] }

/-- An issue with a well-formed creation instant and no transitions. -/
def witIssueC4 : Issue :=
  { key := none, created := some (DateStr.micro 0), status := some "Open",
    resolutiondate := some (DateStr.micro 200), histories := [] }

/-- An unresolved issue: the final open interval is closed at the ambient
wall-clock instant. -/
def openIssueC5 : Issue :=
  { key := none, created := some (DateStr.micro 0), status := some "Open",
    resolutiondate := none, histories := [] }

/-- An issue whose change history is recorded out of chronological order. -/
def witIssueC6 : Issue :=
  { key := none, created := some (DateStr.micro 0), status := some "C",
    resolutiondate := none,
    histories := [
      ⟨some (DateStr.micro 200), [⟨some "status", some "B", some "C"⟩]⟩,
      ⟨some (DateStr.micro 100), [⟨some "status", some "A", some "B"⟩]⟩] }

/-- An issue with an empty change history. -/
def emptyIssueC6 : Issue :=
  { key := none, created := some (DateStr.micro 0), status := some "Open",
    resolutiondate := none, histories := [] }

/-- An issue whose `created` string parses with neither supported format. -/
def invalidIssueC7 : Issue :=
  { key := none, created := some DateStr.invalid, status := some "Open",
    resolutiondate := none,
    histories := [⟨some (DateStr.micro 100),
      [⟨some "status", some "Open", some "Done"⟩]⟩] }

/-- An issue whose earliest transition has `fromString = None` and whose
second transition also has a `None` `toString`: created 0, resolved 200,
transitions at 100 (to `None`) and 150 (to `"Done"`). -/
def cexIssueC10 : Issue :=
  { key := none, created := some (DateStr.micro 0), status := some "Open",
    resolutiondate := some (DateStr.micro 200),
    histories := [
      ⟨some (DateStr.micro 100), [⟨some "status", none, none⟩]⟩,
      ⟨some (DateStr.micro 150), [⟨some "status", none, some "Done"⟩]⟩] }

/-- An issue whose single transition has `fromString = None` and a present
`toString`: created 0, resolved 200, transition to `"Done"` at 100. -/
def witIssueC10 : Issue :=
  { key := none, created := some (DateStr.micro 0), status := some "Open",
    resolutiondate := some (DateStr.micro 200),
    histories := [⟨some (DateStr.micro 100),
      [⟨some "status", none, some "Done"⟩]⟩] }

/-- An issue whose earliest (and only) transition has `fromString = None`, so
the initial status of the walk is the `None` state: created 0, resolved 200,
transition to `"Done"` at 100. -/
def cexIssueC3 : Issue :=
  { key := none, created := some (DateStr.micro 0), status := some "Open",
    resolutiondate := some (DateStr.micro 200),
    histories := [⟨some (DateStr.micro 100),
      [⟨some "status", none, some "Done"⟩]⟩] }

/-- An issue with a parsable creation instant, no transitions, and an
empty-string status name (falsy in Python). -/
def cexIssueC4 : Issue :=
  { key := none, created := some (DateStr.micro 0), status := some "",
    resolutiondate := some (DateStr.micro 200), histories := [] }

/-! ### The claims -/

/-- C1 (counterexample to the claim as stated): for `cexIssueC1` (parsable
`created` 0, parsed `resolved_at` 200, and an earliest transition whose
`fromString` is `None`), the sum of `total_seconds` over all statuses is 100,
not `end_of_analysis − created_at = 200`: the interval before the first
transition is attributed to no status because the initial state is falsy. -/
theorem claim_C1_counterexample :
    Utils.parse_datetime cexIssueC1.created = some 0
    ∧ Utils.end_of_analysis cexIssueC1 0 = 200
    ∧ sumTotals (Utils.calculate_state_durations cexIssueC1 0) = 100
    ∧ sumTotals (Utils.calculate_state_durations cexIssueC1 0) ≠ 200 - 0 := by
  decide

/-- C1 (amended): for every issue with a parsable `created_at`, PROVIDED the
initial status and every transition's `to_status` are present and non-empty
(Python-truthy), the sum of `total_seconds` over all statuses in the result of
`calculate_state_durations` equals `end_of_analysis − created_at`, where
`end_of_analysis` is the parsed `resolved_at` if present (falling back to the
ambient "now" when absent or unparsable). -/
theorem claim_C1 (issue : Issue) (now c : Int)
    (h : Utils.parse_datetime issue.created = some c)
    (hinit : truthy (Utils.initialStatus issue) = true)
    (hall : ∀ t ∈ Utils.sortedTransitions issue, truthy t.toS = true) :
    sumTotals (Utils.calculate_state_durations issue now)
      = Utils.end_of_analysis issue now - c :=
  calc_sum_truthy h hinit hall now

/-- C1 (witness): the amended claim applied to `witIssueC1` (created 0,
resolved 200, one transition `Open → Done` at 100): the sum is
`200 − 0`. -/
theorem claim_C1_witness :
    Utils.parse_datetime witIssueC1.created = some 0
    ∧ truthy (Utils.initialStatus witIssueC1) = true
    ∧ (∀ t ∈ Utils.sortedTransitions witIssueC1, truthy t.toS = true)
    ∧ sumTotals (Utils.calculate_state_durations witIssueC1 999)
        = Utils.end_of_analysis witIssueC1 999 - 0 :=
  ⟨by decide, by decide, by decide,
    claim_C1 witIssueC1 999 0 (by decide) (by decide) (by decide)⟩

/-- C2 (code bug): the spec requires a negative final open interval to be
clamped to zero, so that no status accumulates a negative `total_duration`.
None of the three copies has a clamp — the final-interval duration is added
unconditionally — so for `cexIssueC2` (created at instant 86400, resolved at
instant 0, i.e. `resolved_at < created_at`) every implementation records
`−86400` seconds for `"Open"`, a negative total in the result. -/
theorem claim_C2_code_bug :
    Utils.calculate_state_durations cexIssueC2 86400
      = [(some "Open", ⟨-86400, 1⟩)]
    ∧ GetIssues.calculate_state_durations cexIssueC2 86400
        = [(some "Open", ⟨-86400, 1⟩)]
    ∧ GetJiraMetrics.calculate_state_durations cexIssueC2 86400
        = [(some "Open", ⟨-86400, 1⟩)]
    ∧ getTotal (Utils.calculate_state_durations cexIssueC2 86400) (some "Open")
        < 0 := by
  decide

/-- C3 (counterexample to the claim as stated): for `cexIssueC3`, whose
earliest transition has `fromString = None`, the initial status of the walk
is the falsy `None` state, the `if current_state:` guard skips the
initialization block, and the claim's clauses "sets the entry count of the
initial status to 1 before walking" and "the initial status's entry_count is
always ≥ 1" both fail: the initial status's entry count is 0 before the walk
and 0 in the final result. -/
theorem claim_C3_counterexample :
    Utils.initialStatus cexIssueC3 = none
    ∧ getCount (Utils.initialStats cexIssueC3) (Utils.initialStatus cexIssueC3) = 0
    ∧ getCount (Utils.initialStats cexIssueC3) (Utils.initialStatus cexIssueC3) ≠ 1
    ∧ ¬ (1 ≤ getCount (Utils.calculate_state_durations cexIssueC3 0)
          (Utils.initialStatus cexIssueC3)) := by
  decide

/-- C3 (amended): entry counting in `calculate_state_durations`, with the
initial-status clauses restricted to a present, non-empty (Python-truthy)
initial status, which is what the code's `if current_state:` guard forces.
1. When the initial status is truthy, its entry count is set to 1 before the
   walk (`initialStats`).
2. For every issue with parsable `created_at`, every status `s` ends with
   entry count = (1 if `s` is the truthy initial status else 0) + the number
   of extracted transitions whose `to_status` is `s` — i.e. the count of
   `t.to_status` is incremented at every transition `t`, including repeated
   re-entries (this part is unconditional).
3. Consequently, for an issue with transitions `A→B` at `t1` and `B→A` at
   `t2 > t1` (`A`, `B` distinct non-empty names), `A`'s entry count is 2 and
   `B`'s total duration is `t2 − t1`.
4. The entry count of a truthy initial status is always ≥ 1. -/
theorem claim_C3 :
    (∀ issue : Issue, truthy (Utils.initialStatus issue) = true →
      getCount (Utils.initialStats issue) (Utils.initialStatus issue) = 1)
    ∧ (∀ (issue : Issue) (now c : Int) (s : Option String),
        Utils.parse_datetime issue.created = some c →
        getCount (Utils.calculate_state_durations issue now) s
          = getCount (Utils.initialStats issue) s
            + (Utils.extractTransitions issue.histories).countP
                (fun t => t.toS == s))
    ∧ (∀ (A B : String) (c t1 t2 now : Int),
        A ≠ "" → B ≠ "" → A ≠ B → t1 < t2 →
        getCount (Utils.calculate_state_durations (scenarioIssue A B c t1 t2) now)
            (some A) = 2
        ∧ getTotal (Utils.calculate_state_durations (scenarioIssue A B c t1 t2) now)
            (some B) = t2 - t1)
    ∧ (∀ (issue : Issue) (now c : Int),
        Utils.parse_datetime issue.created = some c →
        truthy (Utils.initialStatus issue) = true →
        1 ≤ getCount (Utils.calculate_state_durations issue now)
              (Utils.initialStatus issue)) := by
  refine ⟨?_, ?_, ?_, ?_⟩
  · intro issue ht
    rw [getCount_initialStats, if_pos ⟨ht, rfl⟩]
  · intro issue now c s h
    exact calc_counts h now s
  · intro A B c t1 t2 now hA hB hAB h12
    have hBA : B ≠ A := fun hx => hAB hx.symm
    have hcalc := scenarioIssue_calc A B c t1 t2 now hA hB hAB h12.le
    constructor
    · rw [hcalc]
      simp [getCount, getStat]
    · rw [hcalc]
      simp [getTotal, getStat, hAB]
  · intro issue now c h ht
    rw [calc_counts h now, getCount_initialStats, if_pos ⟨ht, rfl⟩]
    exact Nat.le_add_right 1 _

/-- C3 (witness): the parts of `claim_C3` instantiated on the concrete
scenario `To Do → In Progress` at 86400 and `In Progress → To Do` at 172800
(created 0, "now" 345600). -/
theorem claim_C3_witness :
    getCount (Utils.initialStats (scenarioIssue "To Do" "In Progress" 0 86400 172800))
        (Utils.initialStatus (scenarioIssue "To Do" "In Progress" 0 86400 172800)) = 1
    ∧ getCount
        (Utils.calculate_state_durations
          (scenarioIssue "To Do" "In Progress" 0 86400 172800) 345600)
        (some "In Progress")
        = getCount (Utils.initialStats (scenarioIssue "To Do" "In Progress" 0 86400 172800))
            (some "In Progress")
          + (Utils.extractTransitions
              (scenarioIssue "To Do" "In Progress" 0 86400 172800).histories).countP
              (fun t => t.toS == some "In Progress")
    ∧ getCount
        (Utils.calculate_state_durations
          (scenarioIssue "To Do" "In Progress" 0 86400 172800) 345600)
        (some "To Do") = 2
    ∧ getTotal
        (Utils.calculate_state_durations
          (scenarioIssue "To Do" "In Progress" 0 86400 172800) 345600)
        (some "In Progress") = 172800 - 86400
    ∧ 1 ≤ getCount
        (Utils.calculate_state_durations
          (scenarioIssue "To Do" "In Progress" 0 86400 172800) 345600)
        (Utils.initialStatus (scenarioIssue "To Do" "In Progress" 0 86400 172800)) :=
  ⟨claim_C3.1 _ (by decide),
   claim_C3.2.1 _ 345600 0 (some "In Progress") (by decide),
   (claim_C3.2.2.1 "To Do" "In Progress" 0 86400 172800 345600
      (by decide) (by decide) (by decide) (by decide)).1,
   (claim_C3.2.2.1 "To Do" "In Progress" 0 86400 172800 345600
      (by decide) (by decide) (by decide) (by decide)).2,
   claim_C3.2.2.2 _ 345600 0 (by decide) (by decide)⟩

/-- C4 (counterexample to the claim as stated): for `cexIssueC4` (parsable
`created` 0, no transitions, but status name `""`), the initial state is the
falsy empty string, both `if current_state:` guards are skipped, and the
result is the empty mapping rather than the claimed single-entry mapping. -/
theorem claim_C4_counterexample :
    Utils.parse_datetime cexIssueC4.created = some 0
    ∧ Utils.extractTransitions cexIssueC4.histories = []
    ∧ Utils.calculate_state_durations cexIssueC4 0 = []
    ∧ Utils.calculate_state_durations cexIssueC4 0
        ≠ [(some (Utils.currentStatus cexIssueC4),
            ⟨Utils.end_of_analysis cexIssueC4 0 - 0, 1⟩)] := by
  decide

/-- C4 (amended): for every issue with a parsable `created_at`, no extracted
status transition, and a status name that is not the empty string (the
Python-falsy case the guards exclude), the result has exactly one entry: the
current status, with total duration `end_of_analysis − created_at` and entry
count 1. -/
theorem claim_C4 (issue : Issue) (now c : Int)
    (h : Utils.parse_datetime issue.created = some c)
    (hempty : Utils.extractTransitions issue.histories = [])
    (hstat : issue.status ≠ some "") :
    Utils.calculate_state_durations issue now
      = [(some (Utils.currentStatus issue),
          ⟨Utils.end_of_analysis issue now - c, 1⟩)] := by
  have hsort : Utils.sortedTransitions issue = [] := by
    unfold Utils.sortedTransitions
    rw [hempty]
    rfl
  have hinit : Utils.initialStatus issue = some (Utils.currentStatus issue) := by
    unfold Utils.initialStatus
    rw [hsort]
  have htru : truthy (some (Utils.currentStatus issue)) = true := by
    unfold Utils.currentStatus
    cases hs : issue.status with
    | none => simp [truthy]
    | some s =>
      have hne : s ≠ "" := by
        intro hx
        exact hstat (by rw [hs, hx])
      simp [truthy, hne]
  have hstats0 : Utils.initialStats issue
      = [(some (Utils.currentStatus issue), ⟨0, 1⟩)] := by
    unfold Utils.initialStats
    rw [hinit, if_pos htru]
    simp [initStat, hasKey, getStat]
  rw [calc_eq_closeOut h now, hsort, hinit, hstats0]
  simp [Utils.processTransitions, Utils.closeOut, htru, addTotal]

/-- C4 (witness): the claim applied to `witIssueC4` (created 0, resolved 200,
status `"Open"`, no transitions): the result is exactly
`[("Open", (200, 1))]`. -/
theorem claim_C4_witness :
    Utils.parse_datetime witIssueC4.created = some 0
    ∧ Utils.extractTransitions witIssueC4.histories = []
    ∧ witIssueC4.status ≠ some ""
    ∧ Utils.calculate_state_durations witIssueC4 7
        = [(some (Utils.currentStatus witIssueC4),
            ⟨Utils.end_of_analysis witIssueC4 7 - 0, 1⟩)] :=
  ⟨by decide, by decide, by decide,
    claim_C4 witIssueC4 7 0 (by decide) (by decide) (by decide)⟩

/-- C5 (code bug): the spec requires the "now" instant to be injected as a
parameter (pure function of issue data and a supplied "now"), not read from
the system clock inside the function; all three copies instead call
`datetime.now(...)` inside `calculate_state_durations`.  In the model the
internal clock read is the parameter `now`, and for an unresolved issue the
output genuinely depends on it: two calls at ambient instants 100 and 200
return different results, so the real function is not a deterministic
function of the issue data alone. -/
theorem claim_C5_code_bug :
    Utils.calculate_state_durations openIssueC5 100 = [(some "Open", ⟨100, 1⟩)]
    ∧ Utils.calculate_state_durations openIssueC5 200 = [(some "Open", ⟨200, 1⟩)]
    ∧ Utils.calculate_state_durations openIssueC5 100
        ≠ Utils.calculate_state_durations openIssueC5 200 := by
  decide

/-- C6: the kept transitions are sorted ascending by timestamp; the sort is a
stable permutation of the extracted list (elements with any fixed timestamp
keep their input order: filtering by any timestamp commutes with the sort);
the initial status is the `from_status` of the earliest transition when any
transition exists and `current_status` otherwise; and for a parsable
`created_at` the computation is exactly the transition walk started at
`(initial status, created_at)` followed by closing the final interval at
`end_of_analysis`. -/
theorem claim_C6 :
    (∀ issue : Issue, List.Sorted dateLe (Utils.sortedTransitions issue))
    ∧ (∀ issue : Issue,
        List.Perm (Utils.sortedTransitions issue)
          (Utils.extractTransitions issue.histories))
    ∧ (∀ (issue : Issue) (k : Int),
        (Utils.sortedTransitions issue).filter (fun u => u.date == k)
          = (Utils.extractTransitions issue.histories).filter
              (fun u => u.date == k))
    ∧ (∀ (issue : Issue) (t : Transition) (rest : List Transition),
        Utils.sortedTransitions issue = t :: rest →
        Utils.initialStatus issue = t.fromS)
    ∧ (∀ issue : Issue, Utils.sortedTransitions issue = [] →
        Utils.initialStatus issue = some (Utils.currentStatus issue))
    ∧ (∀ (issue : Issue) (now c : Int),
        Utils.parse_datetime issue.created = some c →
        Utils.calculate_state_durations issue now
          = Utils.closeOut
              (Utils.processTransitions (Utils.sortedTransitions issue)
                (Utils.initialStats issue) (Utils.initialStatus issue) c)
              (Utils.end_of_analysis issue now)) := by
  refine ⟨?_, ?_, ?_, ?_, ?_, ?_⟩
  · intro issue
    exact sortTransitions_sorted _
  · intro issue
    exact sortTransitions_perm _
  · intro issue k
    exact filter_sortTransitions k _
  · intro issue t rest hsort
    unfold Utils.initialStatus
    rw [hsort]
  · intro issue hsort
    unfold Utils.initialStatus
    rw [hsort]
  · intro issue now c h
    exact calc_eq_closeOut h now

/-- C6 (witness): on `witIssueC6`, whose history is recorded out of order
(`B→C` at 200 before `A→B` at 100), the sorted list is
`[A→B at 100, B→C at 200]`, the initial status is `A`, on `emptyIssueC6` the
initial status is the current status, and the walk-start equation holds
concretely. -/
theorem claim_C6_witness :
    Utils.sortedTransitions witIssueC6
        = [⟨100, some "A", some "B"⟩, ⟨200, some "B", some "C"⟩]
    ∧ Utils.initialStatus witIssueC6
        = (⟨100, some "A", some "B"⟩ : Transition).fromS
    ∧ Utils.initialStatus emptyIssueC6 = some (Utils.currentStatus emptyIssueC6)
    ∧ Utils.calculate_state_durations witIssueC6 300
        = Utils.closeOut
            (Utils.processTransitions (Utils.sortedTransitions witIssueC6)
              (Utils.initialStats witIssueC6) (Utils.initialStatus witIssueC6) 0)
            (Utils.end_of_analysis witIssueC6 300) :=
  ⟨by decide,
   claim_C6.2.2.2.1 witIssueC6 ⟨100, some "A", some "B"⟩
     [⟨200, some "B", some "C"⟩] (by decide),
   claim_C6.2.2.2.2.1 emptyIssueC6 (by decide),
   claim_C6.2.2.2.2.2 witIssueC6 300 0 (by decide)⟩

/-- C7: for every issue whose `created` field is absent, empty, or parses
with neither supported format, `calculate_state_durations` returns the empty
mapping (the total function of the model never fails). -/
theorem claim_C7 (issue : Issue) (now : Int)
    (h : Utils.parse_datetime issue.created = none) :
    Utils.calculate_state_durations issue now = [] := by
  unfold Utils.calculate_state_durations
  cases hc : issue.created with
  | none => simp
  | some ds =>
    rw [hc] at h
    simp [h]

/-- C7 (witness): the claim applied to `invalidIssueC7`, whose `created`
string parses with neither format even though its changelog is
well-formed. -/
theorem claim_C7_witness :
    Utils.parse_datetime invalidIssueC7.created = none
    ∧ Utils.calculate_state_durations invalidIssueC7 500 = [] :=
  ⟨by decide, claim_C7 invalidIssueC7 500 (by decide)⟩

/-- C8: history entries whose record timestamp is missing, empty, or
unparsable contribute nothing: the result equals the result on the same issue
with those entries removed from the changelog. -/
theorem claim_C8 (issue : Issue) (now : Int) :
    Utils.calculate_state_durations issue now
      = Utils.calculate_state_durations
          { issue with
            histories := issue.histories.filter
              (fun h => (Utils.parse_datetime h.created).isSome) } now := by
  have hext := extractTransitions_filter_parsable issue.histories
  simp only [Utils.calculate_state_durations, Utils.sortedTransitions,
    Utils.initialStatus, Utils.initialStats, Utils.currentStatus,
    Utils.closeOut, Utils.end_of_analysis, hext]

/-- C9: the three duplicated implementations of `calculate_state_durations`
(in `get_issues.py`, `ai_impact_analysis/utils.py` and
`ai_impact_analysis/cli/get_jira_metrics.py`) are extensionally equal: on
every issue and the same ambient "now" instant they return equal
status-to-(total_seconds, count) mappings. -/
theorem claim_C9 (issue : Issue) (now : Int) :
    GetIssues.calculate_state_durations issue now
        = Utils.calculate_state_durations issue now
    ∧ GetJiraMetrics.calculate_state_durations issue now
        = Utils.calculate_state_durations issue now :=
  ⟨gi_eq_utils issue now, jm_eq_utils issue now⟩

/-- C10 (counterexample to the claim as stated): `cexIssueC10`'s earliest
transition has an absent `from_status`, but a later transition also has an
absent `to_status`, so a second interval is dropped as well (and the `None`
key even receives an entry through the unguarded `to_status` insertion): the
sum of durations is 50, not `end_of_analysis − t1 = 200 − 100`. -/
theorem claim_C10_counterexample :
    (Utils.sortedTransitions cexIssueC10).head?.map Transition.fromS = some none
    ∧ (Utils.sortedTransitions cexIssueC10).head?.map Transition.date = some 100
    ∧ Utils.end_of_analysis cexIssueC10 0 = 200
    ∧ sumTotals (Utils.calculate_state_durations cexIssueC10 0) = 50
    ∧ sumTotals (Utils.calculate_state_durations cexIssueC10 0) ≠ 200 - 100 := by
  decide

/-- C10 (amended): for every issue with parsable `created_at` whose earliest
kept transition has an absent `from_status`, PROVIDED every transition's
`to_status` is present and non-empty, no entry is recorded under the `None`
key (the unknown predecessor status gets neither entry count nor duration,
so the interval from `created_at` to the first transition is attributed to no
status), and the sum of all durations equals `end_of_analysis` minus the
first transition's timestamp rather than minus `created_at`. -/
theorem claim_C10 (issue : Issue) (now c : Int) (t : Transition)
    (rest : List Transition)
    (h : Utils.parse_datetime issue.created = some c)
    (hsort : Utils.sortedTransitions issue = t :: rest)
    (hfrom : t.fromS = none)
    (hall : ∀ u ∈ Utils.sortedTransitions issue, truthy u.toS = true) :
    getStat (Utils.calculate_state_durations issue now) none = none
    ∧ sumTotals (Utils.calculate_state_durations issue now)
        = Utils.end_of_analysis issue now - t.date :=
  calc_sum_none_initial h hsort hfrom hall now

/-- C10 (witness): the amended claim applied to `witIssueC10` (created 0,
resolved 200, single transition `None → Done` at 100): no `None` entry, and
the durations sum to `200 − 100`. -/
theorem claim_C10_witness :
    Utils.sortedTransitions witIssueC10 = [⟨100, none, some "Done"⟩]
    ∧ (getStat (Utils.calculate_state_durations witIssueC10 0) none = none
       ∧ sumTotals (Utils.calculate_state_durations witIssueC10 0)
           = Utils.end_of_analysis witIssueC10 0 - 100) :=
  ⟨by decide,
   claim_C10 witIssueC10 0 0 ⟨100, none, some "Done"⟩ []
     (by decide) (by decide) (by decide) (by decide)⟩
